import Mathlib

/-!
Verification of the connection/session layer of musicd (src/client.c) and the
query-filter sanitizer (src/query.c), shallowly embedded in Lean 4.

Byte buffers are `List Nat` (one `Nat` per byte).  The byte-buffer operations
live in strings.c, which is not part of the given sources; they are modelled
from the spec (section 4.1 Byte Buffer).  Protocol callbacks (detect, open,
process, feed) are external plug-ins: `detect` is carried in the protocol
descriptor as in the C code, while the observable effects of `open`, `process`
and `feed` on the session (bytes pushed to the outbound buffer, the new feed
flag, the consumed count returned by `process`) are supplied by a per-cycle
environment `CycleEnv`, and the cycle records which callbacks it invoked in an
`Events` log.
-/

namespace Musicd

/-- Modelled from the spec: `string_size` of a byte buffer (strings.c is not
in the sources); the number of bytes currently stored. -/
def string_size (s : List Nat) : Nat := s.length

/-- Modelled from the spec: `string_nappend` appends `data` to the end of the
buffer, preserving order (spec 4.1: append is unconditional). -/
def string_nappend (s data : List Nat) : List Nat := s ++ data

/-- Modelled from the spec: `string_remove_front n` removes the first `n`
bytes and keeps the remaining bytes, in order, at the front (spec 4.1). -/
def string_remove_front (s : List Nat) (n : Nat) : List Nat := s.drop n

/-- Modelled from the spec: `string_push_back` appends one byte. -/
def string_push_back (s : List Nat) (b : Nat) : List Nat := s ++ [b]

/-- A protocol descriptor: name plus the detect probe, as registered in the
protocol table (`protocols`).  The other callbacks are external; their
session-visible effects are supplied by `CycleEnv`. -/
structure Protocol where
  name : String
  detect : List Nat → Int

/-- Session state (client_t): optional bound protocol, the two byte buffers
and the feed flag.  The transport fd, address label and the opaque `self`
handle carry no information the claims depend on and are omitted. -/
structure Client where
  protocol : Option Protocol
  inbuf : List Nat
  outbuf : List Nat
  feed : Bool

/-- Outcome of the `read` syscall in `read_data`, classified as in the C code:
`eof` is a 0 return, `wouldBlock` is a negative return with EWOULDBLOCK,
`rerr` any other negative return, and `bytes data` a positive return that
delivered `data` (so in any run produced by the syscall, `data` is non-empty). -/
inductive ReadRes where
  | eof
  | wouldBlock
  | rerr
  | bytes (data : List Nat)
deriving DecidableEq

/-- Outcome of the `write` syscall in `write_data`: negative with EWOULDBLOCK,
other negative, or `n` bytes accepted (`n` at most the buffer size). -/
inductive WriteRes where
  | wouldBlock
  | werr
  | wrote (n : Nat)
deriving DecidableEq

/-- The external inputs of one cycle: the syscall outcomes and the
session-visible effects of the protocol callbacks, should they be invoked.
`procRes` is the value returned by `process`; `openPush`, `procPush` and
`feedPush` are the bytes the respective callback appends to the outbound
buffer during the call; `openFeed`, `procFeed`, `feedFeed` the value of the
feed flag when the respective callback returns. -/
structure CycleEnv where
  rd : ReadRes
  wr : WriteRes
  openPush : List Nat
  openFeed : Bool
  procRes : Int
  procPush : List Nat
  procFeed : Bool
  feedPush : List Nat
  feedFeed : Bool

/-- Log of the callback invocations a cycle performed: the names probed by
`detect`, in order, and how often open, process and feed were called. -/
structure Events where
  probes : List String
  openCount : Nat
  processCount : Nat
  feedCount : Nat
deriving DecidableEq

/-- The empty log. -/
def noEvents : Events := ⟨[], 0, 0, 0⟩

/-- Result of one cycle: the int returned by `client_process`, the session
state afterwards, and the invocation log. -/
structure CycleResult where
  result : Int
  client : Client
  events : Events

/-- read_data (client.c lines 37-60): classify the read outcome; on success
append the bytes to the input buffer and return their count. -/
def read_data (c : Client) (rd : ReadRes) : Int × Client :=
  match rd with
  | .eof => (-1, c)
  | .wouldBlock => (0, c)
  | .rerr => (-1, c)
  | .bytes data => (Int.ofNat (string_size data), { c with inbuf := string_nappend c.inbuf data })

/-- write_data (client.c lines 63-81): classify the write outcome; on success
remove the written prefix from the outbound buffer and return 0. -/
def write_data (c : Client) (wr : WriteRes) : Int × Client :=
  match wr with
  | .wouldBlock => (0, c)
  | .werr => (-1, c)
  | .wrote n => (0, { c with outbuf := string_remove_front c.outbuf n })

/-- find_protocol (client.c lines 84-95): walk the registration list until a
descriptor whose detect returns 1 is found; also report the names probed, in
order. -/
def find_protocol (ps : List Protocol) (buf : List Nat) : Option Protocol × List String :=
  match ps with
  | [] => (none, [])
  | p :: rest =>
    if p.detect buf = 1 then (some p, [p.name])
    else
      let r := find_protocol rest buf
      (r.1, p.name :: r.2)

/-- client.c lines 155-172: process pending input if any, else feed when the
feed flag is set and the outbound buffer is empty.  The callback first runs
with its side effects (pushed bytes, new feed flag); only after a
non-negative `process` return are the consumed bytes removed. -/
def dispatch_input (e : CycleEnv) (c : Client) (ev : Events) : CycleResult :=
  if 0 < string_size c.inbuf then
    let cCall : Client := { c with outbuf := c.outbuf ++ e.procPush, feed := e.procFeed }
    let ev2 : Events := { ev with processCount := ev.processCount + 1 }
    if e.procRes < 0 then ⟨e.procRes, cCall, ev2⟩
    else ⟨0, { cCall with inbuf := string_remove_front c.inbuf e.procRes.toNat }, ev2⟩
  else if c.feed = true ∧ string_size c.outbuf = 0 then
    ⟨0, { c with outbuf := c.outbuf ++ e.feedPush, feed := e.feedFeed },
      { ev with feedCount := ev.feedCount + 1 }⟩
  else ⟨0, c, ev⟩

/-- client.c lines 145-172: first try to purge the outgoing buffer, then
handle input or feed. -/
def flush_then_dispatch (e : CycleEnv) (c : Client) (ev : Events) : CycleResult :=
  if 0 < string_size c.outbuf then
    let w := write_data c e.wr
    if w.1 < 0 then ⟨w.1, w.2, ev⟩
    else dispatch_input e w.2 ev
  else dispatch_input e c ev

/-- client.c lines 127-174: the part of client_process after the read: bind a
protocol when none is bound yet (terminating the session when no descriptor
matches), then flush and dispatch. -/
def client_process_rest (e : CycleEnv) (ps : List Protocol) (c : Client) : CycleResult :=
  match c.protocol with
  | none =>
    let fp := find_protocol ps c.inbuf
    match fp.1 with
    | none => ⟨-1, c, ⟨fp.2, 0, 0, 0⟩⟩
    | some p =>
      let c2 : Client :=
        { c with protocol := some p, outbuf := c.outbuf ++ e.openPush, feed := e.openFeed }
      flush_then_dispatch e c2 ⟨fp.2, 1, 0, 0⟩
  | some _ => flush_then_dispatch e c noEvents

/-- client_process (client.c lines 118-175): one cycle.  Read first; a
negative read classification ends the cycle with that result; otherwise the
rest of the cycle runs. -/
def client_process (e : CycleEnv) (ps : List Protocol) (c : Client) : CycleResult :=
  let r := read_data c e.rd
  if r.1 < 0 then ⟨r.1, r.2, noEvents⟩
  else client_process_rest e ps r.2

/-- The reactor runs one cycle per readiness event and tears the session down
on a negative result, so later environments are not consumed after that.
Returns the final session state and the total number of open invocations. -/
def runCycles (ps : List Protocol) : List CycleEnv → Client → Client × Nat
  | [], c => (c, 0)
  | e :: es, c =>
    let r := client_process e ps c
    if r.result < 0 then (r.client, r.events.openCount)
    else
      let rest := runCycles ps es r.client
      (rest.1, r.events.openCount + rest.2)

/-- client_has_data (client.c lines 214-220). -/
def client_has_data (c : Client) : Bool :=
  if 0 < string_size c.outbuf ∨ c.feed = true then true
  else false

/-- The retry loop of client_send (client.c lines 185-201), with vsnprintf
modelled by its C99 contract (which the spec relies on): the call always
returns the required length `msg.length` of the formatted message `msg`, and
writes the whole message iff that length is less than the buffer size.  Under
this model the returned value is never negative, so the pre-C99 branch of the
source (`size *= 2` when the call returns -1) is unreachable; the reachable
branch retries with `size = n + 1`. -/
def client_send_loop (msg : List Nat) (size : Nat) : Nat × List Nat :=
  if h : msg.length < size then (msg.length, msg)
  else client_send_loop msg (msg.length + 1)
termination_by msg.length + 1 - size
decreasing_by
  simp at h
  omega

/-- client_send (client.c lines 177-205): format into a grown-to-fit
intermediate buffer, append that buffer to the outbound buffer, and return
the length the formatting call reported.  The initial buffer size is 128. -/
def client_send (c : Client) (msg : List Nat) : Client × Nat :=
  let r := client_send_loop msg 128
  ({ c with outbuf := c.outbuf ++ r.2 }, r.1)

/-- id_fields (query.c lines 40-52), indexed by the query_field_t value. -/
def id_fields (field : Nat) : Bool :=
  [false, true, true, true, true, false, false, false, false, false, false].getD field false

/-- The sanitizing loop of query_filter (query.c lines 202-206): keep exactly
the bytes that are a comma (44) or an ASCII decimal digit (48-57). -/
def sanitize_id_filter : List Nat → List Nat
  | [] => []
  | b :: rest =>
    if b = 44 ∨ (48 ≤ b ∧ b ≤ 57) then b :: sanitize_id_filter rest
    else sanitize_id_filter rest

/-- query_filter (query.c lines 186-208) restricted to the stored filter
value: a null filter stores null; a non-id field stores the pattern
`%filter%` (37 is the percent byte); an id field stores the sanitized
filter. -/
def query_filter (field : Nat) (filter : Option (List Nat)) : Option (List Nat) :=
  match filter with
  | none => none
  | some f =>
    if ¬ (id_fields field = true) then some (37 :: (f ++ [37]))
    else some (sanitize_id_filter f)

/-- Byte list of a literal SQL fragment. -/
def strBytes (s : String) : List Nat := s.toList.map Char.toNat

/-- The id branch of build_filters (query.c line 297): the stored filter is
interpolated directly into the SQL text `colmap IN (filter)`. -/
def in_clause_sql (colmap filt : List Nat) : List Nat :=
  colmap ++ strBytes " IN (" ++ filt ++ strBytes ")"

/-! ### Concrete fixtures used by witnesses and counterexamples -/

/-- A descriptor whose detect never matches. -/
def protoNo : Protocol := ⟨"no-match", fun _ => 0⟩

/-- A descriptor whose detect always matches. -/
def protoA : Protocol := ⟨"A", fun _ => 1⟩

/-- A second descriptor whose detect always matches. -/
def protoB : Protocol := ⟨"B", fun _ => 1⟩

/-- A neutral environment: both syscalls would block, process consumes 0, no
callback pushes bytes or raises the feed flag. -/
def envBase : CycleEnv := ⟨.wouldBlock, .wouldBlock, [], false, 0, [], false, [], false⟩

/-- The neutral environment with an eof read. -/
def envEof : CycleEnv := { envBase with rd := ReadRes.eof }

/-- The neutral environment with a read that delivers one byte. -/
def envOneByte : CycleEnv := { envBase with rd := ReadRes.bytes [66] }

/-- Scenario C environment: the read delivers one byte, the write accepts 4
of the 10 buffered outbound bytes, process consumes 3. -/
def envPartialWrite : CycleEnv :=
  { envBase with rd := ReadRes.bytes [9], wr := WriteRes.wrote 4, procRes := 3 }

/-- Scenario C session: bound, 2 buffered input bytes, 10 outbound bytes. -/
def clientPartialWrite : Client :=
  ⟨some protoA, [7, 8], [10, 11, 12, 13, 14, 15, 16, 17, 18, 19], false⟩

/-- Scenario E session: bound, 50 buffered input bytes, nothing outbound. -/
def clientFifty : Client := ⟨some protoA, List.replicate 50 65, [], false⟩

/-- Scenario D session: bound, both buffers empty, feed flag set. -/
def clientIdleFeed : Client := ⟨some protoA, [], [], true⟩

/-- A bound session with empty buffers and a clear feed flag. -/
def clientBoundA : Client := ⟨some protoA, [], [], false⟩

/-! ### Helper lemmas -/

theorem client_send_loop_eq (msg : List Nat) (size : Nat) :
    client_send_loop msg size = (msg.length, msg) := by
  rw [client_send_loop]
  split
  · rfl
  · rw [client_send_loop]
    simp

theorem ofNat_lt_zero_false (n : Nat) : (Int.ofNat n < 0) = False :=
  eq_false (not_lt.mpr (Int.ofNat_nonneg n))

theorem natCast_lt_zero_false (n : Nat) : ((n : Int) < 0) = False :=
  eq_false (not_lt.mpr (Int.natCast_nonneg n))

theorem dispatch_input_frame (e : CycleEnv) (c : Client) (ev : Events) :
    (dispatch_input e c ev).client.protocol = c.protocol ∧
      (dispatch_input e c ev).events.openCount = ev.openCount ∧
      (dispatch_input e c ev).events.probes = ev.probes := by
  unfold dispatch_input
  split_ifs <;> simp

theorem flush_then_dispatch_frame (e : CycleEnv) (c : Client) (ev : Events) :
    (flush_then_dispatch e c ev).client.protocol = c.protocol ∧
      (flush_then_dispatch e c ev).events.openCount = ev.openCount ∧
      (flush_then_dispatch e c ev).events.probes = ev.probes := by
  unfold flush_then_dispatch write_data
  rcases e.wr with _ | _ | n <;> split_ifs <;>
    simp [dispatch_input_frame]

theorem find_protocol_first (buf : List Nat) (l₁ : List Protocol) (p : Protocol)
    (l₂ : List Protocol) (hp : p.detect buf = 1) (hl : ∀ q ∈ l₁, q.detect buf ≠ 1) :
    find_protocol (l₁ ++ p :: l₂) buf = (some p, l₁.map Protocol.name ++ [p.name]) := by
  induction l₁ with
  | nil => simp [find_protocol, hp]
  | cons q qs ih =>
    have hq : ¬ q.detect buf = 1 := hl q (by simp)
    have ih2 := ih (fun r hr => hl r (by simp [hr]))
    simp [find_protocol, hq, ih2]

theorem find_protocol_none (buf : List Nat) (ps : List Protocol)
    (h : ∀ q ∈ ps, q.detect buf ≠ 1) :
    find_protocol ps buf = (none, ps.map Protocol.name) := by
  induction ps with
  | nil => simp [find_protocol]
  | cons q qs ih =>
    have hq : ¬ q.detect buf = 1 := h q (by simp)
    have ih2 := ih (fun r hr => h r (by simp [hr]))
    simp [find_protocol, hq, ih2]

theorem client_process_bound (e : CycleEnv) (ps : List Protocol) (c : Client)
    (p : Protocol) (hb : c.protocol = some p) :
    (client_process e ps c).client.protocol = some p ∧
      (client_process e ps c).events.openCount = 0 := by
  obtain ⟨prot, inb, outb, fd⟩ := c
  obtain ⟨rd, wr, op, ofd, pr, pp, pf, fp, ff⟩ := e
  simp only [Client.protocol] at hb
  subst hb
  rcases rd with _ | _ | _ | data <;>
    simp [client_process, read_data, client_process_rest, noEvents,
      flush_then_dispatch_frame, string_nappend, ofNat_lt_zero_false,
      natCast_lt_zero_false]

theorem client_process_unbound (e : CycleEnv) (ps : List Protocol) (c : Client)
    (hub : c.protocol = none) :
    (client_process e ps c).events.openCount =
      (if (client_process e ps c).client.protocol.isSome = true then 1 else 0) := by
  obtain ⟨prot, inb, outb, fd⟩ := c
  obtain ⟨rd, wr, op, ofd, pr, pp, pf, fp, ff⟩ := e
  simp only [Client.protocol] at hub
  subst hub
  rcases rd with _ | _ | _ | data
  · simp [client_process, read_data, noEvents]
  · simp only [client_process, read_data, client_process_rest]
    rcases hfp : (find_protocol ps inb).1 with _ | p
    · simp [hfp, noEvents]
    · simp [hfp, flush_then_dispatch_frame]
  · simp [client_process, read_data, noEvents]
  · simp only [client_process, read_data, client_process_rest, string_nappend,
      ofNat_lt_zero_false, natCast_lt_zero_false, if_false]
    rcases hfp : (find_protocol ps (inb ++ data)).1 with _ | p
    · simp [hfp, noEvents]
    · simp [hfp, flush_then_dispatch_frame]

/-! ### Claims -/

/-- C8: for every format string and arguments — that is, for every formatted
message `msg` — client_send sizes its intermediate buffer by retrying with
the length the formatting call reports when the initial 128-byte buffer is
too small, so the complete message is appended to the outbound buffer without
truncation and its length is returned. -/
theorem client_send_no_truncation (c : Client) (msg : List Nat) :
    client_send c msg = ({ c with outbuf := c.outbuf ++ msg }, msg.length) := by
  simp [client_send, client_send_loop_eq]

/-- C9: client_has_data returns true iff the outbound buffer is non-empty or
the feed flag is set, and false only when both conditions fail. -/
theorem client_has_data_iff (c : Client) :
    client_has_data c = true ↔ (0 < string_size c.outbuf ∨ c.feed = true) := by
  simp [client_has_data]

/-- C10: for every id field and every non-null filter, the stored sanitized
filter — the exact string build_filters later interpolates into the SQL text
of the IN clause — consists only of comma bytes and ASCII digit bytes. -/
theorem id_filter_sanitized (field : Nat) (f s : List Nat)
    (hid : id_fields field = true) (hq : query_filter field (some f) = some s) :
    (∀ b, b ∈ s → b = 44 ∨ (48 ≤ b ∧ b ≤ 57)) ∧
      (∀ colmap, in_clause_sql colmap s =
        colmap ++ strBytes " IN (" ++ s ++ strBytes ")") := by
  constructor
  · intro b hb
    have hs : s = sanitize_id_filter f := by
      simp [query_filter, hid] at hq
      exact hq.symm
    subst hs
    clear hq
    induction f with
    | nil => simp [sanitize_id_filter] at hb
    | cons x xs ih =>
      by_cases hx : x = 44 ∨ (48 ≤ x ∧ x ≤ 57)
      · rw [sanitize_id_filter, if_pos hx] at hb
        rcases List.mem_cons.mp hb with h | h
        · subst h; exact hx
        · exact ih h
      · rw [sanitize_id_filter, if_neg hx] at hb
        exact ih hb
  · intro colmap
    rfl

/-- C10 witness: a filter with SQL-injection bytes is sanitized to the bytes
of `12,3`; the theorem applied to its first byte (49) shows it is a digit. -/
theorem id_filter_sanitized_witness :
    49 = 44 ∨ (48 ≤ 49 ∧ 49 ≤ 57) :=
  (id_filter_sanitized 1 (strBytes "12,3); DROP TABLE tracks--") [49, 50, 44, 51]
    (by decide) (by rfl)).1 49 (by decide)

/-- Claim C6: a read classified as orderly disconnect (0 bytes) on an unbound
session ends the cycle with the terminal result -1 (the session transitions
to CLOSED), the session state is returned unchanged and still unbound, and no
detect probe, open, process or feed is invoked. -/
theorem eof_on_unbound_closes (e : CycleEnv) (ps : List Protocol) (c : Client)
    (hub : c.protocol = none) (hrd : e.rd = ReadRes.eof) :
    client_process e ps c = ⟨-1, c, noEvents⟩ ∧
      (client_process e ps c).client.protocol = none := by
  obtain ⟨rd, wr, op, ofd, pr, pp, pf, fp, ff⟩ := e
  simp only at hrd
  subst hrd
  have h1 : client_process ⟨ReadRes.eof, wr, op, ofd, pr, pp, pf, fp, ff⟩ ps c
      = ⟨-1, c, noEvents⟩ := rfl
  exact ⟨h1, by rw [h1]; exact hub⟩

/-- C6 witness: concrete unbound session, eof read. -/
theorem eof_on_unbound_closes_witness :
    client_process envEof [protoNo] ⟨none, [], [], false⟩
        = ⟨-1, ⟨none, [], [], false⟩, noEvents⟩ ∧
      (client_process envEof [protoNo] ⟨none, [], [], false⟩).client.protocol = none :=
  eof_on_unbound_closes envEof [protoNo] ⟨none, [], [], false⟩ rfl rfl

/-- Claim C2, amended: a would-block read appends nothing to the input buffer
and the read itself reports neither data nor an error (read_data returns 0
with the session unchanged), but the cycle does NOT end there: it continues
with exactly the remaining steps (detection when unbound, output flush, input
processing or feed) on the unchanged session state. -/
theorem wouldblock_read_no_append_cycle_continues (e : CycleEnv) (ps : List Protocol)
    (c : Client) (hrd : e.rd = ReadRes.wouldBlock) :
    read_data c e.rd = (0, c) ∧
      client_process e ps c = client_process_rest e ps c := by
  obtain ⟨rd, wr, op, ofd, pr, pp, pf, fp, ff⟩ := e
  simp only at hrd
  subst hrd
  exact ⟨rfl, rfl⟩

/-- C2 witness: concrete bound session with a would-block read. -/
theorem wouldblock_read_no_append_cycle_continues_witness :
    read_data ⟨some protoA, [5], [], false⟩ envBase.rd = (0, ⟨some protoA, [5], [], false⟩) ∧
      client_process envBase [protoA] ⟨some protoA, [5], [], false⟩
        = client_process_rest envBase [protoA] ⟨some protoA, [5], [], false⟩ :=
  wouldblock_read_no_append_cycle_continues envBase [protoA] ⟨some protoA, [5], [], false⟩ rfl

/-- C2 counterexample: on an unbound session with an empty input buffer, a
would-block read does not end the cycle: detection is invoked (the no-match
descriptor is probed) and the cycle returns the terminal result -1, closing
the session — contradicting the claim that such a cycle ends with no state
change, no error and no detection. -/
theorem wouldblock_read_counterexample :
    (client_process envBase [protoNo] ⟨none, [], [], false⟩).result = -1 ∧
      (client_process envBase [protoNo] ⟨none, [], [], false⟩).events.probes
        = ["no-match"] :=
  ⟨rfl, rfl⟩

/-- Claim C1, settled against the code at the cited failing input (code_bug):
a bound session holds 10 outbound bytes and pending input; the write accepts
only 4 bytes.  The outbound buffer correctly retains the unwritten 6-byte
suffix in order and the cycle reports success (result 0) — those parts of the
claim hold — but the protocol process callback IS invoked in the same cycle
(processCount 1, and it consumes the 3 input bytes), although the claim and
the source comment above client.c line 157 say input processing is skipped
until the output is fully drained. -/
theorem partial_write_still_processes_input :
    (client_process envPartialWrite [protoA] clientPartialWrite).result = 0 ∧
      (client_process envPartialWrite [protoA] clientPartialWrite).client.outbuf
        = [14, 15, 16, 17, 18, 19] ∧
      (client_process envPartialWrite [protoA] clientPartialWrite).events.processCount = 1 ∧
      (client_process envPartialWrite [protoA] clientPartialWrite).client.inbuf = [] :=
  ⟨rfl, rfl, rfl, rfl⟩

/-- Claim C3: on a cycle run on an unbound session whose read delivers
`data`, the registered descriptors are probed in registration order and the
session binds to the first descriptor whose detect reports the positive match
1 on the input-buffer content (of two descriptors that would both match, the
one registered first is selected, and descriptors after it are not probed);
if no registered descriptor matches, the cycle returns the terminal result -1
closing the session, with no open, process or feed invoked. -/
theorem first_match_binds_or_close (e : CycleEnv) (ps : List Protocol) (c : Client)
    (data : List Nat) (hub : c.protocol = none) (hrd : e.rd = ReadRes.bytes data) :
    (∀ l₁ p l₂, ps = l₁ ++ p :: l₂ → p.detect (c.inbuf ++ data) = 1 →
        (∀ q ∈ l₁, q.detect (c.inbuf ++ data) ≠ 1) →
        (client_process e ps c).client.protocol = some p ∧
          (client_process e ps c).events.probes = l₁.map Protocol.name ++ [p.name] ∧
          (client_process e ps c).events.openCount = 1) ∧
    ((∀ q ∈ ps, q.detect (c.inbuf ++ data) ≠ 1) →
        client_process e ps c =
          ⟨-1, { c with inbuf := c.inbuf ++ data }, ⟨ps.map Protocol.name, 0, 0, 0⟩⟩) := by
  obtain ⟨rd, wr, op, ofd, pr, pp, pf, fp, ff⟩ := e
  obtain ⟨prot, inb, outb, fd⟩ := c
  simp only [Client.protocol] at hub
  simp only at hrd
  subst hub
  subst hrd
  constructor
  · intro l₁ p l₂ hps hp hl
    subst hps
    have hfp := find_protocol_first (inb ++ data) l₁ p l₂ hp hl
    simp only [client_process, read_data, string_nappend, client_process_rest,
      ofNat_lt_zero_false, natCast_lt_zero_false, if_false, Client.inbuf] at *
    simp [hfp, flush_then_dispatch_frame]
  · intro hnone
    have hfp := find_protocol_none (inb ++ data) ps hnone
    simp only [client_process, read_data, string_nappend, client_process_rest,
      ofNat_lt_zero_false, natCast_lt_zero_false, if_false, Client.inbuf] at *
    simp [hfp]

/-- C3 witness: two descriptors that both match; the session binds to the
first registered one, only it is probed, and open runs once. -/
theorem first_match_binds_or_close_witness :
    (client_process envOneByte [protoA, protoB] ⟨none, [], [], false⟩).client.protocol
        = some protoA ∧
      (client_process envOneByte [protoA, protoB] ⟨none, [], [], false⟩).events.probes
        = ["A"] ∧
      (client_process envOneByte [protoA, protoB] ⟨none, [], [], false⟩).events.openCount
        = 1 := by
  have h := (first_match_binds_or_close envOneByte [protoA, protoB] ⟨none, [], [], false⟩
    [66] rfl rfl).1 [] protoA [protoB] rfl rfl (by simp)
  simpa [protoA] using h

/-- When the input buffer is non-empty and process returns the non-negative
count k, the dispatch step removes exactly the first k input bytes, keeps the
callback effects, and succeeds. -/
theorem dispatch_input_processes (e : CycleEnv) (c : Client) (ev : Events) (k : Nat)
    (hne : c.inbuf ≠ []) (hres : e.procRes = Int.ofNat k) :
    dispatch_input e c ev =
      ⟨0, ⟨c.protocol, string_remove_front c.inbuf k, c.outbuf ++ e.procPush, e.procFeed⟩,
        { ev with processCount := ev.processCount + 1 }⟩ := by
  obtain ⟨prot, inb, outb, fd⟩ := c
  simp only [Client.inbuf] at hne
  have hpos : 0 < string_size inb := by
    simpa [string_size, List.length_pos] using hne
  simp [dispatch_input, hpos, hres, ofNat_lt_zero_false, natCast_lt_zero_false]

/-- The flush step never fails when the write outcome is not a fatal error,
and it hands the dispatch step a session with the same protocol, input buffer
and feed flag. -/
theorem flush_hands_over (e : CycleEnv) (c : Client) (ev : Events)
    (hw : e.wr ≠ WriteRes.werr) :
    ∃ c2, flush_then_dispatch e c ev = dispatch_input e c2 ev ∧
      c2.protocol = c.protocol ∧ c2.inbuf = c.inbuf ∧ c2.feed = c.feed := by
  obtain ⟨rd, wr, op, ofd, pr, pp, pf, fp, ff⟩ := e
  simp only at hw
  unfold flush_then_dispatch
  split_ifs with h1
  · rcases wr with _ | _ | n
    · exact ⟨c, by simp [write_data], rfl, rfl, rfl⟩
    · exact absurd rfl hw
    · refine ⟨{ c with outbuf := string_remove_front c.outbuf n }, by simp [write_data], rfl, rfl, rfl⟩
  · exact ⟨c, rfl, rfl, rfl, rfl⟩

/-- Claim C4: on a bound session whose cycle reaches the processing step with
a non-empty input buffer of some length and whose process callback returns a
consumed count k between 0 and that length, exactly the first k bytes are
removed from the front of the input buffer and the remainder is preserved in
its exact order; k = 0 leaves the input buffer unchanged and the cycle still
succeeds (result 0, not an error), and since only the consumed prefix is
dropped, a later process call never sees already-consumed bytes. -/
theorem process_consumes_exact_prefix (e : CycleEnv) (ps : List Protocol) (c : Client)
    (p : Protocol) (k : Nat)
    (hb : c.protocol = some p)
    (hr : ¬ (read_data c e.rd).1 < 0)
    (hw : e.wr ≠ WriteRes.werr)
    (hne : (read_data c e.rd).2.inbuf ≠ [])
    (hres : e.procRes = Int.ofNat k)
    (hk : k ≤ string_size (read_data c e.rd).2.inbuf) :
    (client_process e ps c).result = 0 ∧
      (client_process e ps c).client.inbuf =
        string_remove_front (read_data c e.rd).2.inbuf k ∧
      (client_process e ps c).events.processCount = 1 ∧
      (read_data c e.rd).2.inbuf =
        (read_data c e.rd).2.inbuf.take k ++ (client_process e ps c).client.inbuf := by
  obtain ⟨rd, wr, op, ofd, pr, pp, pf, fp, ff⟩ := e
  obtain ⟨prot, inb, outb, fd⟩ := c
  simp only [Client.protocol] at hb
  subst hb
  simp only at hres hw hr hne hk ⊢
  subst hres
  have hstep : client_process ⟨rd, wr, op, ofd, Int.ofNat k, pp, pf, fp, ff⟩ ps
      ⟨some p, inb, outb, fd⟩
      = flush_then_dispatch ⟨rd, wr, op, ofd, Int.ofNat k, pp, pf, fp, ff⟩
          (read_data ⟨some p, inb, outb, fd⟩ rd).2 noEvents := by
    rcases rd with _ | _ | _ | data
    · simp [read_data] at hr
    · simp [client_process, read_data, client_process_rest]
    · simp [read_data] at hr
    · simp [client_process, read_data, client_process_rest, ofNat_lt_zero_false,
        natCast_lt_zero_false, string_nappend]
  obtain ⟨c2, heq, hcp, hcin, hcf⟩ := flush_hands_over
    ⟨rd, wr, op, ofd, Int.ofNat k, pp, pf, fp, ff⟩
    (read_data ⟨some p, inb, outb, fd⟩ rd).2 noEvents hw
  rw [hstep, heq,
    dispatch_input_processes ⟨rd, wr, op, ofd, Int.ofNat k, pp, pf, fp, ff⟩ c2 noEvents k
      (by rw [hcin]; exact hne) rfl]
  refine ⟨rfl, by simp [hcin], rfl, ?_⟩
  simp only [hcin, string_remove_front]
  exact (List.take_append_drop k (read_data ⟨some p, inb, outb, fd⟩ rd).2.inbuf).symm

/-- C4 witness (Scenario E): 50 input bytes available, process reports
consuming 0 — no bytes are removed, input is retained unchanged, the cycle
succeeds, and process ran once. -/
theorem process_consumes_exact_prefix_witness :
    (client_process envBase [protoA] clientFifty).result = 0 ∧
      (client_process envBase [protoA] clientFifty).client.inbuf = List.replicate 50 65 ∧
      (client_process envBase [protoA] clientFifty).events.processCount = 1 := by
  have h := process_consumes_exact_prefix envBase [protoA] clientFifty protoA 0
    rfl (by decide) (by decide) (by decide) rfl (by decide)
  exact ⟨h.1, by simpa [read_data, string_remove_front, envBase, clientFifty] using h.2.1,
    h.2.2.1⟩

/-- Characterization of the feed decision at the dispatch step: feed runs
exactly once iff the input buffer is empty, the feed flag is set and the
outbound buffer is empty; and never together with process. -/
theorem dispatch_input_feed_char (e : CycleEnv) (c : Client) :
    ((dispatch_input e c noEvents).events.feedCount = 1 ↔
        (c.inbuf = [] ∧ c.feed = true ∧ c.outbuf = [])) ∧
      (dispatch_input e c noEvents).events.feedCount ≤ 1 ∧
      ((dispatch_input e c noEvents).events.feedCount = 1 →
        (dispatch_input e c noEvents).events.processCount = 0) := by
  obtain ⟨prot, inb, outb, fd⟩ := c
  unfold dispatch_input
  split_ifs with h1 h2 h3 <;>
    simp_all [noEvents, string_size, List.length_pos, List.length_eq_zero]

/-- The feed characterization lifted over the flush step: the outbound buffer
that matters is the one left after the flush attempt. -/
theorem flush_feed_char (e : CycleEnv) (c : Client) :
    ((flush_then_dispatch e c noEvents).events.feedCount = 1 ↔
        (c.inbuf = [] ∧ c.feed = true ∧
          (if 0 < string_size c.outbuf then (write_data c e.wr).2 else c).outbuf = [])) ∧
      (flush_then_dispatch e c noEvents).events.feedCount ≤ 1 ∧
      ((flush_then_dispatch e c noEvents).events.feedCount = 1 →
        (flush_then_dispatch e c noEvents).events.processCount = 0) := by
  obtain ⟨rd, wr, op, ofd, pr, pp, pf, fp, ff⟩ := e
  by_cases houtb : 0 < string_size c.outbuf
  · rcases wr with _ | _ | n
    · have h1 : flush_then_dispatch ⟨rd, WriteRes.wouldBlock, op, ofd, pr, pp, pf, fp, ff⟩
          c noEvents
          = dispatch_input ⟨rd, WriteRes.wouldBlock, op, ofd, pr, pp, pf, fp, ff⟩ c noEvents := by
        simp [flush_then_dispatch, write_data, houtb]
      have h2 : (if 0 < string_size c.outbuf
          then (write_data c WriteRes.wouldBlock).2 else c) = c := by
        simp [write_data, houtb]
      rw [h1, h2]
      exact dispatch_input_feed_char _ c
    · have h1 : flush_then_dispatch ⟨rd, WriteRes.werr, op, ofd, pr, pp, pf, fp, ff⟩ c noEvents
          = ⟨-1, (write_data c WriteRes.werr).2, noEvents⟩ := by
        simp [flush_then_dispatch, write_data, houtb]
      have h2 : (if 0 < string_size c.outbuf
          then (write_data c WriteRes.werr).2 else c) = c := by
        simp [write_data, houtb]
      rw [h1, h2]
      have houtne : c.outbuf ≠ [] := by
        simpa [string_size, List.length_pos] using houtb
      refine ⟨?_, by simp [noEvents], by intro h; simp [noEvents] at h⟩
      constructor
      · intro h; simp [noEvents] at h
      · rintro ⟨_, _, h3⟩; exact absurd h3 houtne
    · have h1 : flush_then_dispatch ⟨rd, WriteRes.wrote n, op, ofd, pr, pp, pf, fp, ff⟩ c noEvents
          = dispatch_input ⟨rd, WriteRes.wrote n, op, ofd, pr, pp, pf, fp, ff⟩
              { c with outbuf := string_remove_front c.outbuf n } noEvents := by
        simp [flush_then_dispatch, write_data, houtb]
      have h2 : (if 0 < string_size c.outbuf
          then (write_data c (WriteRes.wrote n)).2 else c)
          = { c with outbuf := string_remove_front c.outbuf n } := by
        simp [write_data, houtb]
      rw [h1, h2]
      have h3 := dispatch_input_feed_char ⟨rd, WriteRes.wrote n, op, ofd, pr, pp, pf, fp, ff⟩
        { c with outbuf := string_remove_front c.outbuf n }
      simpa using h3
  · have h1 : flush_then_dispatch ⟨rd, wr, op, ofd, pr, pp, pf, fp, ff⟩ c noEvents
        = dispatch_input ⟨rd, wr, op, ofd, pr, pp, pf, fp, ff⟩ c noEvents := by
      simp [flush_then_dispatch, houtb]
    have h2 : (if 0 < string_size c.outbuf then (write_data c wr).2 else c) = c := by
      simp [houtb]
    rw [h1, h2]
    exact dispatch_input_feed_char _ c

/-- Claim C5: in a non-failing cycle on a bound session, the feed callback is
invoked — and then exactly once — precisely when the input buffer (after the
read) is empty, the feed flag is set, and the outbound buffer (after the
flush attempt) is empty; and in a cycle that invokes feed, process is not
invoked. -/
theorem feed_exactly_when_idle (e : CycleEnv) (ps : List Protocol) (c : Client)
    (p : Protocol) (hb : c.protocol = some p) (hr : ¬ (read_data c e.rd).1 < 0) :
    ((client_process e ps c).events.feedCount = 1 ↔
        ((read_data c e.rd).2.inbuf = [] ∧ c.feed = true ∧
          (if 0 < string_size (read_data c e.rd).2.outbuf
            then (write_data (read_data c e.rd).2 e.wr).2
            else (read_data c e.rd).2).outbuf = [])) ∧
      (client_process e ps c).events.feedCount ≤ 1 ∧
      ((client_process e ps c).events.feedCount = 1 →
        (client_process e ps c).events.processCount = 0) := by
  obtain ⟨rd, wr, op, ofd, pr, pp, pf, fp, ff⟩ := e
  obtain ⟨prot, inb, outb, fd⟩ := c
  simp only [Client.protocol] at hb
  subst hb
  simp only at hr ⊢
  rcases rd with _ | _ | _ | data
  · simp [read_data] at hr
  · have hstep : client_process ⟨ReadRes.wouldBlock, wr, op, ofd, pr, pp, pf, fp, ff⟩ ps
        ⟨some p, inb, outb, fd⟩
        = flush_then_dispatch ⟨ReadRes.wouldBlock, wr, op, ofd, pr, pp, pf, fp, ff⟩
            ⟨some p, inb, outb, fd⟩ noEvents := by
      simp [client_process, read_data, client_process_rest]
    rw [hstep]
    simpa [read_data] using
      flush_feed_char ⟨ReadRes.wouldBlock, wr, op, ofd, pr, pp, pf, fp, ff⟩
        ⟨some p, inb, outb, fd⟩
  · simp [read_data] at hr
  · have hstep : client_process ⟨ReadRes.bytes data, wr, op, ofd, pr, pp, pf, fp, ff⟩ ps
        ⟨some p, inb, outb, fd⟩
        = flush_then_dispatch ⟨ReadRes.bytes data, wr, op, ofd, pr, pp, pf, fp, ff⟩
            ⟨some p, string_nappend inb data, outb, fd⟩ noEvents := by
      simp [client_process, read_data, client_process_rest, ofNat_lt_zero_false,
        natCast_lt_zero_false]
    rw [hstep]
    simpa [read_data] using
      flush_feed_char ⟨ReadRes.bytes data, wr, op, ofd, pr, pp, pf, fp, ff⟩
        ⟨some p, string_nappend inb data, outb, fd⟩

/-- C5 witness (Scenario D): bound session, both buffers empty, feed flag
set, would-block read — feed is invoked exactly once and process is not. -/
theorem feed_exactly_when_idle_witness :
    (client_process envBase [protoA] clientIdleFeed).events.feedCount = 1 ∧
      (client_process envBase [protoA] clientIdleFeed).events.processCount = 0 := by
  have h := feed_exactly_when_idle envBase [protoA] clientIdleFeed protoA rfl (by decide)
  have h1 : (client_process envBase [protoA] clientIdleFeed).events.feedCount = 1 :=
    h.1.mpr ⟨rfl, rfl, by decide⟩
  exact ⟨h1, h.2.2 h1⟩

/-- Claim C7: over any sequence of cycles, the protocol binding of a session
is set at most once and never changes afterward (a session bound to p stays
bound to p), and the open callback is invoked exactly once over the lifetime
— namely in the single cycle that establishes the binding — so the total
number of open invocations in a run is 1 if the run starts unbound and ends
bound, and 0 otherwise. -/
theorem protocol_bound_once (ps : List Protocol) (envs : List CycleEnv) (c : Client) :
    (∀ p, c.protocol = some p → (runCycles ps envs c).1.protocol = some p) ∧
      (runCycles ps envs c).2 =
        (if ((runCycles ps envs c).1.protocol.isSome && c.protocol.isNone) = true
          then 1 else 0) := by
  induction envs generalizing c with
  | nil =>
    refine ⟨?_, ?_⟩
    · intro p hp
      simpa [runCycles] using hp
    · rcases hc : c.protocol with _ | p <;> simp [runCycles, hc]
  | cons e es ih =>
    have hmain : runCycles ps (e :: es) c =
        if (client_process e ps c).result < 0
          then ((client_process e ps c).client, (client_process e ps c).events.openCount)
          else ((runCycles ps es (client_process e ps c).client).1,
            (client_process e ps c).events.openCount
              + (runCycles ps es (client_process e ps c).client).2) := rfl
    rw [hmain]
    by_cases hres : (client_process e ps c).result < 0
    · rw [if_pos hres]
      rcases hc : c.protocol with _ | p
      · have hopen := client_process_unbound e ps c hc
        refine ⟨?_, ?_⟩
        · intro q hq
          simp at hq
        · rcases hb2 : (client_process e ps c).client.protocol with _ | q <;>
            simp [hopen, hb2, hc]
      · have hbp := client_process_bound e ps c p hc
        refine ⟨?_, ?_⟩
        · intro q hq
          injection hq with h2
          subst h2
          simpa using hbp.1
        · simp [hbp.1, hbp.2, hc]
    · rw [if_neg hres]
      have ihh := ih (client_process e ps c).client
      rcases hc : c.protocol with _ | p
      · have hopen := client_process_unbound e ps c hc
        rcases hb2 : (client_process e ps c).client.protocol with _ | q
        · have h0 : (client_process e ps c).events.openCount = 0 := by
            rw [hopen, hb2]
            rfl
          have hrest := ihh.2
          rw [hb2] at hrest
          refine ⟨?_, ?_⟩
          · intro q hq
            simp at hq
          · simpa [h0, hc] using hrest
        · have h1 : (client_process e ps c).events.openCount = 1 := by
            rw [hopen, hb2]
            rfl
          have hfinal := ihh.1 q hb2
          have hrest : (runCycles ps es (client_process e ps c).client).2 = 0 := by
            rw [ihh.2, hb2]
            simp
          refine ⟨?_, ?_⟩
          · intro r hr
            simp at hr
          · simp [h1, hrest, hfinal, hc]
      · have hbp := client_process_bound e ps c p hc
        have hfinal := ihh.1 p hbp.1
        have hrest : (runCycles ps es (client_process e ps c).client).2 = 0 := by
          rw [ihh.2, hbp.1]
          simp
        refine ⟨?_, ?_⟩
        · intro q hq
          injection hq with h2
          subst h2
          simpa using hfinal
        · simp [hbp.2, hrest, hfinal, hc]

/-- C7 witness: a run of two cycles on an already-bound session keeps the
binding (and, via the theorem, invokes open zero times). -/
theorem protocol_bound_once_witness :
    (runCycles [protoA] [envBase, envOneByte] clientBoundA).1.protocol = some protoA :=
  (protocol_bound_once [protoA] [envBase, envOneByte] clientBoundA).1 protoA rfl

end Musicd
